import Mathlib

/-!
Verification of the booksage/bookscout core against its specification.

The Go source is shallowly embedded: pure functions become Lean functions,
stateful operations become explicit state passing, machine integers become
Nat/Int, float32 scores are modelled as exact rationals (the verified claims
concern orderings and algebraic structure that rounding does not affect),
and fallible operations return Option/Except.  Nondeterministic Go map
iteration is rendered as insertion-ordered association lists; all verified
properties are insensitive to that order.
-/

/-- Common search-result record shared by the fusion retriever, the skyline
ranker and the agentic generator (Go struct SearchResult with ID, Content,
Score float32, Source). -/
structure SearchResult where
  id : String
  content : String
  score : ℚ
  source : String
deriving DecidableEq, Repr, Inhabited

/-- One pass of the inner loop of the Go double-loop descending sort
(`if a[j].Score > a[i].Score swap`): returns the maximum element brought to
the front and the remaining elements in the order the swaps leave them. -/
def innerPass (key : SearchResult → ℚ) : SearchResult → List SearchResult →
    SearchResult × List SearchResult
  | front, [] => (front, [])
  | front, x :: xs =>
    if key front < key x then
      let p := innerPass key x xs
      (p.1, front :: p.2)
    else
      let p := innerPass key front xs
      (p.1, x :: p.2)

/-- The Go nested-loop sort, with the outer loop rendered as fuel (the loop
runs exactly `length` iterations). -/
def sortDescFuel (key : SearchResult → ℚ) : Nat → List SearchResult → List SearchResult
  | 0, l => l
  | _ + 1, [] => []
  | fuel + 1, x :: xs =>
    let p := innerPass key x xs
    p.1 :: sortDescFuel key fuel p.2

/-- Descending sort by a rational key, as performed by the Go loops /
`sort.Slice` with a greater-than comparator. -/
def sortDesc (key : SearchResult → ℚ) (l : List SearchResult) : List SearchResult :=
  sortDescFuel key l.length l

/-- Vector axis of the skyline ranker: the score, biased by 1.2 for results
from the vector engine (SkylineRanker.Rank, enrichment loop). -/
def vectorAxis (r : SearchResult) : ℚ :=
  if r.source = "graph" then r.score
  else if r.source = "vector" then r.score * 1.2
  else r.score

/-- Graph axis of the skyline ranker: 0.8 for graph-engine results, the
default 0.5 otherwise (SkylineRanker.Rank, enrichment loop). -/
def graphAxis (r : SearchResult) : ℚ :=
  if r.source = "graph" then 0.8 else 0.5

/-- Index `i` of `l` is dominated when some other index `j` is strictly
greater on both axes (SkylineRanker.Rank inner loop). -/
def dominatedIdx (l : List SearchResult) (i : Nat) : Bool :=
  (List.range l.length).any fun j =>
    decide (j ≠ i) &&
    decide (vectorAxis (l.getD i default) < vectorAxis (l.getD j default)) &&
    decide (graphAxis (l.getD i default) < graphAxis (l.getD j default))

/-- The skyline filter: the input elements whose index is not dominated, in
input order (SkylineRanker.Rank outer loop appending survivors). -/
def skylineFilter (l : List SearchResult) : List SearchResult :=
  ((List.range l.length).filter fun i => !(dominatedIdx l i)).map fun i => l.getD i default

/-- SkylineRanker.Rank: inputs of length at most one are returned unchanged;
otherwise dominated results are removed and the survivors sorted by original
score descending. -/
def skylineRank (l : List SearchResult) : List SearchResult :=
  if l.length ≤ 1 then l
  else sortDesc (fun r => r.score) (skylineFilter l)

/-- Engine weights are a map from engine/source name to weight
(fusion EngineWeights), rendered as an association list. -/
def EngineWeights := List (String × ℚ)

/-- Query intents recognised by the fusion intent classifier. -/
inductive QueryIntent
  | summary
  | definition
  | relationship
  | comparison
  | general
deriving DecidableEq, Repr

/-- RouteOperator.GetWeights: the intent-to-engine-weights table built by
NewRouteOperator. -/
def getWeights : QueryIntent → EngineWeights
  | .summary => [("graph", 0.20), ("tree", 0.70), ("vector", 0.10)]
  | .definition => [("graph", 0.20), ("tree", 0.10), ("vector", 0.70)]
  | .relationship => [("graph", 0.70), ("tree", 0.10), ("vector", 0.20)]
  | .comparison => [("graph", 0.40), ("tree", 0.40), ("vector", 0.20)]
  | .general => [("graph", 0.34), ("tree", 0.33), ("vector", 0.33)]

/-- Effective weight of an engine in performWeightedRRF: the Go map lookup
yields the zero value 0 for a missing engine, and a zero weight is replaced
by the default 0.33. -/
def effWeight (weights : EngineWeights) (source : String) : ℚ :=
  let w := (List.lookup source weights).getD 0
  if w = 0 then 0.33 else w

/-- Insert a result into the per-source groups, preserving first-seen source
order and appending within a group (performWeightedRRF sourceGroups map). -/
def addGrouped (gs : List (String × List SearchResult)) (r : SearchResult) :
    List (String × List SearchResult) :=
  match gs with
  | [] => [(r.source, [r])]
  | (s, g) :: rest =>
    if s = r.source then (s, g ++ [r]) :: rest else (s, g) :: addGrouped rest r

/-- Group results by source tag, establishing per-engine rankings
(performWeightedRRF sourceGroups). -/
def groupBySource (l : List SearchResult) : List (String × List SearchResult) :=
  l.foldl addGrouped []

/-- The weighted RRF contributions of every result: its dedup key (the
content string), its weighted reciprocal-rank score
`w_engine * 1/(60 + rank)` with rank 1-based inside its engine group, and the
result itself (performWeightedRRF inner loops, flattened). -/
def rrfEntries (weights : EngineWeights) (l : List SearchResult) :
    List (String × ℚ × SearchResult) :=
  (groupBySource l).flatMap fun sg =>
    sg.2.enum.map fun p =>
      (p.2.content, effWeight weights sg.1 * (1 / (60 + (p.1 : ℚ) + 1)), p.2)

/-- Add a score contribution under a key, accumulating with existing entries
(the Go `rrfScores[key] += score`). -/
def bumpScore (m : List (String × ℚ)) (k : String) (v : ℚ) : List (String × ℚ) :=
  match m with
  | [] => [(k, v)]
  | (k', v') :: rest =>
    if k' = k then (k', v' + v) :: rest else (k', v') :: bumpScore rest k v

/-- Accumulated RRF scores per content key (the Go rrfScores map). -/
def accScores (entries : List (String × ℚ × SearchResult)) : List (String × ℚ) :=
  entries.foldl (fun m e => bumpScore m e.1 e.2.1) []

/-- First-seen representative per content key (the Go rrfContent map,
populated only when the key is absent). -/
def firstSeen (entries : List (String × ℚ × SearchResult)) :
    List (String × SearchResult) :=
  entries.foldl
    (fun m e => if m.any (fun p => p.1 == e.1) then m else m ++ [(e.1, e.2.2)]) []

/-- FusionRetriever.performWeightedRRF: group by source, accumulate weighted
reciprocal-rank scores deduplicating by content, then sort descending. -/
def performWeightedRRF (weights : EngineWeights) (l : List SearchResult) :
    List SearchResult :=
  if l = [] then l
  else
    let entries := rrfEntries weights l
    let scores := accScores entries
    let fused := (firstSeen entries).map fun kr =>
      { kr.2 with score := (List.lookup kr.1 scores).getD 0 }
    sortDesc (fun r => r.score) fused

/-- Specification-level fused score of a content string: over every engine
group, the sum of `w_engine * 1/(60 + r)` over the 1-based ranks `r` at which
that content occurs in the group. -/
def specScore (weights : EngineWeights) (l : List SearchResult) (c : String) : ℚ :=
  ((groupBySource l).map fun sg =>
    (sg.2.enum.map fun p =>
      if p.2.content = c then effWeight weights sg.1 * (1 / (60 + (p.1 : ℚ) + 1))
      else 0).sum).sum

/-- Score associated with a content string in a fused result list (0 when the
content is absent); used to state the concrete intent-weighting scenario. -/
def scoreOf (l : List SearchResult) (c : String) : ℚ :=
  ((l.find? fun r => r.content == c).map fun r => r.score).getD 0

/-- Saga status codes (models.SagaStatus: Pending=0, Processing=1,
Completed=2, Failed=3). -/
inductive SagaStatus
  | pending
  | processing
  | completed
  | failed
deriving DecidableEq, Repr

/-- Ingestion step codes (models.IngestStep: Parsing=0, Chunking=1,
Embedding=2, Indexing=3). -/
inductive IngestStep
  | parsing
  | chunking
  | embedding
  | indexing
deriving DecidableEq, Repr

/-- Persisted ingest_sagas row (models.IngestSaga, the columns the claims
observe). -/
structure SagaRow where
  status : SagaStatus
  version : Nat
  currentStep : IngestStep
  errorMessage : String
deriving DecidableEq, Repr

/-- Errors surfaced by the saga repository. -/
inductive DbError
  | concurrentUpdate
deriving DecidableEq, Repr

/-- BunStore.UpdateSagaStatus: the conditional UPDATE sets status, step,
error message and `version = version + 1`, guarded by
`WHERE id = ? AND version = ?`; zero rows affected leaves the row unchanged
and reports ErrConcurrentUpdate. -/
def updateSagaStatus (row : SagaRow) (observedVersion : Nat) (status : SagaStatus)
    (currentStep : IngestStep) (errorMsg : String) : SagaRow × Except DbError Unit :=
  if row.version = observedVersion then
    ({ status := status, version := row.version + 1, currentStep := currentStep,
       errorMessage := errorMsg }, .ok ())
  else
    (row, .error .concurrentUpdate)

/-- A structural chunk as the orchestrator consumes it (the `content` field
of the chunk map). -/
structure Chunk where
  content : String
deriving DecidableEq, Repr

/-- A node of the graph payload (the Go `map[string]any` node entries). -/
structure GNode where
  id : String
  text : String
  typ : String
  name : String
deriving DecidableEq, Repr

/-- An edge of the graph payload (the Go `map[string]any` edge entries). -/
structure GEdge where
  src : String
  dst : String
  typ : String
  desc : String
deriving DecidableEq, Repr

/-- Extracted entity (GraphExtractor Entity: name, type, description). -/
structure Entity where
  name : String
  typ : String
  description : String
deriving DecidableEq, Repr

/-- Extracted relation (GraphExtractor Relation: source, target,
description). -/
structure Relation where
  source : String
  target : String
  description : String
deriving DecidableEq, Repr

/-- Observable world state threaded through RunIngestionSaga: the persisted
saga row, the number of vector points stored under the saga's doc_id, the
graph payload actually inserted, the step-log upserts, the number of
compensation attempts and of critical compensation-failure records. -/
structure SagaWorld where
  saga : SagaRow
  vectorPoints : Nat
  graphPayload : Option (List GNode × List GEdge)
  stepEvents : List (IngestStep × SagaStatus)
  compensationAttempts : Nat
  criticalLogs : Nat
deriving DecidableEq, Repr

/-- Outcomes of the external collaborators during one RunIngestionSaga run:
whether the vector upsert, the graph insert and the compensating delete
succeed, the error strings they produce, the RAPTOR tree nodes returned by
BuildTree, and the per-chunk extractor outcome (none models an extraction
error, which the orchestrator skips). -/
structure SagaEffects where
  insertChunksOk : Bool
  vectorErrMsg : String
  insertGraphOk : Bool
  graphErrMsg : String
  deleteDocOk : Bool
  treeNodes : List GNode
  extract : String → Option (List Entity × List Relation)

/-- Saga-level errors returned by RunIngestionSaga. -/
inductive SagaError
  | concurrentUpdate
  | vectorInsertionFailed
  | graphInsertionFailed
deriving DecidableEq, Repr

/-- Entity/relation accumulation over the chunks (RunIngestionSaga step
Indexing, extraction loop: results are appended only when extraction
succeeds). -/
def extractAll (eff : SagaEffects) (chunks : List Chunk) :
    List Entity × List Relation :=
  chunks.foldl
    (fun acc c =>
      match eff.extract c.content with
      | some (es, rs) => (acc.1 ++ es, acc.2 ++ rs)
      | none => acc)
    ([], [])

/-- Graph payload construction of RunIngestionSaga step Indexing: RELATED_TO
edges from the relations, then per entity an Entity node and a GT_LINK edge
to the document root; nodes are the caller's graph nodes, the RAPTOR tree
nodes, and the entity nodes. -/
def buildGraphPayload (eff : SagaEffects) (strID : String) (graphNodes : List GNode)
    (chunks : List Chunk) : List GNode × List GEdge :=
  let er := extractAll eff chunks
  let relationEdges := er.2.map fun rel =>
    { src := strID ++ "-ent-" ++ rel.source, dst := strID ++ "-ent-" ++ rel.target,
      typ := "RELATED_TO", desc := rel.description : GEdge }
  let entityNodes := er.1.map fun ent =>
    { id := strID ++ "-ent-" ++ ent.name, text := ent.description,
      typ := "Entity", name := ent.name : GNode }
  let gtLinks := er.1.map fun ent =>
    { src := strID ++ "-ent-" ++ ent.name, dst := strID, typ := "GT_LINK",
      desc := "" : GEdge }
  (graphNodes ++ eff.treeNodes ++ entityNodes, relationEdges ++ gtLinks)

/-- SagaOrchestrator.RunIngestionSaga: transition to Processing at Embedding
under the observed version, upsert the chunk points, then build and insert
the graph payload; on graph failure mark the saga Failed at Indexing and
compensate by deleting the document's vector points, recording a critical
event when the compensation itself fails. -/
def runIngestionSaga (eff : SagaEffects) (sagaVersion : Nat) (strID : String)
    (chunks : List Chunk) (graphNodes : List GNode) (w : SagaWorld) :
    Except SagaError Unit × SagaWorld :=
  let u1 := updateSagaStatus w.saga sagaVersion .processing .embedding ""
  match u1.2 with
  | .error _ => (.error .concurrentUpdate, { w with saga := u1.1 })
  | .ok _ =>
    let memVersion := sagaVersion + 1
    let w1 := { w with saga := u1.1,
                       stepEvents := w.stepEvents ++ [(IngestStep.embedding, SagaStatus.processing)] }
    if eff.insertChunksOk then
      let w2 := { w1 with vectorPoints := chunks.length,
                          stepEvents := w1.stepEvents ++ [(IngestStep.embedding, SagaStatus.completed)] }
      let w3 := { w2 with stepEvents := w2.stepEvents ++ [(IngestStep.indexing, SagaStatus.processing)] }
      let payload := buildGraphPayload eff strID graphNodes chunks
      if eff.insertGraphOk then
        let w4 := { w3 with graphPayload := some payload,
                            stepEvents := w3.stepEvents ++ [(IngestStep.indexing, SagaStatus.completed)] }
        let u2 := updateSagaStatus w4.saga memVersion .completed .indexing ""
        match u2.2 with
        | .error _ => (.error .concurrentUpdate, { w4 with saga := u2.1 })
        | .ok _ => (.ok (), { w4 with saga := u2.1 })
      else
        let u2 := updateSagaStatus w3.saga memVersion .failed .indexing eff.graphErrMsg
        let w4 := { w3 with saga := u2.1,
                            stepEvents := w3.stepEvents ++ [(IngestStep.indexing, SagaStatus.failed)] }
        let w5 := { w4 with compensationAttempts := w4.compensationAttempts + 1 }
        let w6 :=
          if eff.deleteDocOk then { w5 with vectorPoints := 0 }
          else { w5 with criticalLogs := w5.criticalLogs + 1 }
        (.error .graphInsertionFailed, w6)
    else
      let u2 := updateSagaStatus w1.saga memVersion .failed .embedding eff.vectorErrMsg
      let w2 := { w1 with saga := u2.1,
                          stepEvents := w1.stepEvents ++ [(IngestStep.embedding, SagaStatus.failed)] }
      (.error .vectorInsertionFailed, w2)

/-- Persisted documents row (models.Document, the columns
StartOrResumeIngestion observes: surrogate id and unique content hash). -/
structure DocRow where
  id : Nat
  fileHash : Nat
deriving DecidableEq, Repr

/-- Persisted ingest_sagas row keyed by its surrogate id and document id
(models.IngestSaga as StartOrResumeIngestion observes it). -/
structure SagaRec where
  id : Nat
  documentId : Nat
  status : SagaStatus
  currentStep : IngestStep
  version : Nat
deriving DecidableEq, Repr

/-- The saga store visible to StartOrResumeIngestion: documents and sagas
(sagas newest-first, so the head match is the latest by created_at), plus the
autoincrement counters. -/
structure IngestStore where
  docs : List DocRow
  sagas : List SagaRec
  nextDocId : Nat
  nextSagaId : Nat
deriving DecidableEq, Repr

/-- Errors surfaced by StartOrResumeIngestion. -/
inductive IngestError
  | alreadyIngested
deriving DecidableEq, Repr

/-- BunStore.GetDocumentByHash: the document with the given content hash, if
any. -/
def getDocumentByHash (st : IngestStore) (hash : Nat) : Option DocRow :=
  st.docs.find? fun d => d.fileHash == hash

/-- BunStore.GetLatestSagaByDocumentID: the newest saga of the document
(ORDER BY created_at DESC LIMIT 1; sagas are kept newest-first). -/
def getLatestSagaByDocumentID (st : IngestStore) (docId : Nat) : Option SagaRec :=
  st.sagas.find? fun s => s.documentId == docId

/-- The common saga-creation block of StartOrResumeIngestion: a new Pending
saga at step Parsing for the document, with version 1. -/
def createSagaFor (st : IngestStore) (docId : Nat) :
    (Except IngestError SagaRec) × IngestStore :=
  let s : SagaRec :=
    { id := st.nextSagaId, documentId := docId, status := .pending,
      currentStep := .parsing, version := 1 }
  (.ok s, { st with sagas := s :: st.sagas, nextSagaId := st.nextSagaId + 1 })

/-- SagaOrchestrator.StartOrResumeIngestion: refuse when the document's
latest saga is Completed, resume a non-Completed latest saga, create a saga
for a saga-less existing document, and otherwise insert the document and then
create the saga. -/
def startOrResumeIngestion (st : IngestStore) (hash : Nat) :
    (Except IngestError SagaRec) × IngestStore :=
  match getDocumentByHash st hash with
  | some existingDoc =>
    match getLatestSagaByDocumentID st existingDoc.id with
    | some saga =>
      if saga.status = SagaStatus.completed then (.error .alreadyIngested, st)
      else (.ok saga, st)
    | none => createSagaFor st existingDoc.id
  | none =>
    let newDoc : DocRow := { id := st.nextDocId, fileHash := hash }
    let st1 := { st with docs := newDoc :: st.docs, nextDocId := st.nextDocId + 1 }
    createSagaFor st1 newDoc.id

/-- One embedding result of the batcher (pb.EmbeddingResult: the input text
and its dense vector, kept abstract in the vector type). -/
structure EmbResult (α : Type) where
  text : String
  dense : α
deriving DecidableEq, Repr

/-- Number of batches of the batcher: `(len(texts) + batchSize - 1) / batchSize`
(meaningful only for a positive batch size; the Go expression panics with a
division by zero when batchSize is 0). -/
def numBatches (batchSize : Nat) (texts : List String) : Nat :=
  (texts.length + batchSize - 1) / batchSize

/-- The consecutive slices `texts[i*batchSize : min(i*batchSize+batchSize, len)]`
dispatched by the batcher. -/
def batchSlices (batchSize : Nat) (texts : List String) : List (List String) :=
  (List.range (numBatches batchSize texts)).map fun i =>
    let s := i * batchSize
    let e := min (s + batchSize) texts.length
    (texts.drop s).take (e - s)

/-- Batcher.GenerateEmbeddingsBatched: empty input short-circuits to `([], 0)`
before any client call; a zero batch size on non-empty input is the Go
integer division by zero (modelled as `none`); otherwise the batches are
dispatched, the first failing batch (in batch order) aborts with a wrapped
error and no partial results, and on success the per-batch results are
reassembled in input order with the approximate token count `10 * len`. -/
def generateEmbeddingsBatched {α : Type} (embed : List String → Except String (List α))
    (batchSize : Nat) (texts : List String) :
    Option (Except String (List (EmbResult α) × Int)) :=
  if texts.length = 0 then some (.ok ([], 0))
  else if batchSize = 0 then none
  else
    let outs := (batchSlices batchSize texts).map fun b => (b, embed b)
    match outs.enum.findSome?
        (fun ip =>
          match ip.2.2 with
          | .error e => some ("batch " ++ toString ip.1 ++ " failed: " ++ e)
          | .ok _ => none) with
    | some e => some (.error e)
    | none =>
      let results := outs.flatMap fun p =>
        match p.2 with
        | .ok vs => (p.1.zip vs).map fun tv => ({ text := tv.1, dense := tv.2 } : EmbResult α)
        | .error _ => []
      some (.ok (results, 10 * (texts.length : Int)))

/-- Scout persistent state (tracker.FileStateStore stateData: the watermark
and the processed-id set). -/
structure ScoutState where
  watermark : Int
  processedIds : List String
deriving DecidableEq, Repr

/-- FileStateStore.GetWatermark. -/
def getWatermark (s : ScoutState) : Int :=
  s.watermark

/-- The starting point chosen by WorkerService.Run: the configured since
timestamp when it is non-zero, otherwise the persisted watermark. -/
def workerSince (cfgSinceTimestamp : Int) (state : ScoutState) : Int :=
  if cfgSinceTimestamp = 0 then getWatermark state else cfgSinceTimestamp

/-- Events emitted on the generator stream (GeneratorEvent types reasoning,
source, answer, error), plus an explicit marker for the single deferred
channel close. -/
inductive GenEvent
  | reasoning (content : String)
  | source (content : String)
  | answer (content : String)
  | error (content : String)
  | closed
deriving DecidableEq, Repr

/-- The observable outcome of one GenerateAnswer invocation: the ordered
event trace (ending in the close marker) and the prompts sent to the heavy
LLM, in call order. -/
structure GenOut where
  events : List GenEvent
  heavyCalls : List String
deriving DecidableEq, Repr

/-- Support levels of the generation critique (SupportLevel constants). -/
inductive SupportLevel
  | fullySupported
  | partiallySupported
  | noSupport
deriving DecidableEq, Repr

/-- Go rendering of a SupportLevel (its underlying string constant). -/
def supportStr : SupportLevel → String
  | .fullySupported => "fully_supported"
  | .partiallySupported => "partially_supported"
  | .noSupport => "no_support"

/-- The literal strict-context directive appended on regeneration. -/
def strictDirective : String :=
  "\n\nIMPORTANT: Base your answer STRICTLY on the provided context."

/-- Generator truncate helper: shorten a string to maxLen characters with an
ellipsis (Go slices bytes; rendered here over characters). -/
def truncateStr (s : String) (maxLen : Nat) : String :=
  if s.length ≤ maxLen then s else s.take maxLen ++ "..."

/-- Generator.decomposeQuery result handling: split the light-LLM response
into lines, trim, keep non-empty lines longer than 5 characters, and fall
back to the original query on error or when nothing remains. -/
def decomposeSubQueries (decomposeResp : Except String String) (query : String) :
    List String :=
  match decomposeResp with
  | .error _ => [query]
  | .ok resp =>
    let subs := ((resp.splitOn "\n").map String.trim).filter fun t =>
      decide (t ≠ "") && decide (5 < t.length)
    if subs = [] then [query] else subs

/-- Per-candidate Self-RAG retrieval critique loop: relevant candidates are
kept in the context and produce a source event; filtered candidates produce a
reasoning event. -/
def critiqueResults (evalR : String → String → Bool) (sq : String) :
    List SearchResult → List GenEvent × List String
  | [] => ([], [])
  | r :: rs =>
    let p := critiqueResults evalR sq rs
    if evalR sq r.content then
      (GenEvent.source ("[" ++ r.source ++ "] (score: " ++ toString r.score ++ ") "
        ++ truncateStr r.content 200) :: p.1, r.content :: p.2)
    else
      (GenEvent.reasoning ("[Self-RAG] Filtered irrelevant result from " ++ r.source)
        :: p.1, p.2)

/-- The per-sub-query retrieval loop of GenerateAnswer: announce the search,
retrieve (a failure degrades to a warning event), critique the candidates. -/
def retrieveLoopAux (retrieve : String → Except String (List SearchResult))
    (evalR : String → String → Bool) (total : Nat) :
    Nat → List String → List GenEvent × List String
  | _, [] => ([], [])
  | i, sq :: rest =>
    let head := GenEvent.reasoning ("[Fusion] Searching for sub-query "
      ++ toString (i + 1) ++ "/" ++ toString total ++ ": " ++ truncateStr sq 80)
    match retrieve sq with
    | .error e =>
      let p := retrieveLoopAux retrieve evalR total (i + 1) rest
      (head :: GenEvent.reasoning ("[Fusion] Search warning: " ++ e) :: p.1, p.2)
    | .ok results =>
      let c := critiqueResults evalR sq results
      let p := retrieveLoopAux retrieve evalR total (i + 1) rest
      (head :: (c.1 ++ p.1), c.2 ++ p.2)

/-- The retrieval phase of GenerateAnswer: with a retriever, run the loop and
report the kept-context count; without one, announce context-free
generation. -/
def retrievalPhase (retr : Option (String → Except String (List SearchResult)))
    (evalR : String → String → Bool) (subQs : List String) :
    List GenEvent × List String :=
  match retr with
  | some retrieve =>
    let p := retrieveLoopAux retrieve evalR subQs.length 0 subQs
    (p.1 ++ [GenEvent.reasoning ("[Agent] " ++ toString p.2.length
      ++ " relevant context chunks after Self-RAG filtering.")], p.2)
  | none =>
    ([GenEvent.reasoning "[Agent] No retriever configured. Generating without context."],
     [])

/-- buildRAGPrompt: the literal RAG prompt with numbered context sources, or
the context-free fallback prompt. -/
def buildRAGPrompt (query : String) (contextChunks : List String) : String :=
  if contextChunks = [] then
    "Answer the following question to the best of your ability:\n\n" ++ query
  else
    let ctx := String.join (contextChunks.enum.map fun p =>
      "[Source " ++ toString (p.1 + 1) ++ "]\n" ++ p.2 ++ "\n\n")
    "You are a helpful assistant that answers questions based on the provided context.\n"
      ++ "Use ONLY the information in the context to answer. If the context doesn\x27t contain the answer, say so.\n\n"
      ++ "=== CONTEXT ===\n" ++ ctx ++ "=== QUESTION ===\n" ++ query
      ++ "\n\n=== ANSWER ===\n"

/-- Generator.GenerateAnswer: decompose, retrieve and critique per sub-query,
generate with the heavy LLM, critique the draft when context was kept and
regenerate once with the strict directive on No Support; every return path
runs the single deferred close of the stream. -/
def generateAnswer (decomposeResp : Except String String)
    (retr : Option (String → Except String (List SearchResult)))
    (evalR : String → String → Bool) (evalGen : String → String → SupportLevel)
    (heavy : String → Except String String) (query : String) : GenOut :=
  let ev0 : List GenEvent := [GenEvent.reasoning "[CoR] Analyzing query complexity..."]
  let subQs := decomposeSubQueries decomposeResp query
  let ev1 : List GenEvent :=
    if 1 < subQs.length then
      [GenEvent.reasoning ("[CoR] Decomposed into " ++ toString subQs.length
        ++ " sub-queries")]
    else []
  let rp := retrievalPhase retr evalR subQs
  let ctxChunks := rp.2
  let evHead := ev0 ++ ev1 ++ rp.1 ++ [GenEvent.reasoning "[Agent] Generating answer..."]
  let prompt := buildRAGPrompt query ctxChunks
  match heavy prompt with
  | .error e =>
    { events := evHead ++ [GenEvent.error ("generation failed: " ++ e), GenEvent.closed],
      heavyCalls := [prompt] }
  | .ok draft =>
    if 0 < ctxChunks.length then
      let ctxJoined := String.intercalate "\n\n" ctxChunks
      let support := evalGen draft ctxJoined
      let evSup := [GenEvent.reasoning ("[Self-RAG] Support level: " ++ supportStr support)]
      if support = SupportLevel.noSupport then
        let evRegen :=
          [GenEvent.reasoning "[Self-RAG] Answer not supported by context. Regenerating..."]
        match heavy (prompt ++ strictDirective) with
        | .error e =>
          { events := evHead ++ evSup ++ evRegen
              ++ [GenEvent.error ("regeneration failed: " ++ e), GenEvent.closed],
            heavyCalls := [prompt, prompt ++ strictDirective] }
        | .ok finalAnswer =>
          { events := evHead ++ evSup ++ evRegen
              ++ [GenEvent.answer finalAnswer, GenEvent.closed],
            heavyCalls := [prompt, prompt ++ strictDirective] }
      else
        { events := evHead ++ evSup ++ [GenEvent.answer draft, GenEvent.closed],
          heavyCalls := [prompt] }
    else
      { events := evHead ++ [GenEvent.answer draft, GenEvent.closed],
        heavyCalls := [prompt] }

/-- Concrete two-element skyline input: a vector result and a graph result,
neither dominating the other. -/
def c6Input : List SearchResult :=
  [{ id := "a", content := "A", score := 2, source := "vector" },
   { id := "b", content := "B", score := 1, source := "graph" }]

/-- Concrete fusion inputs: one result per engine, each at per-engine
rank 1 (the intent-weighting scenario). -/
def c5Input : List SearchResult :=
  [{ id := "g1", content := "G", score := 0.85, source := "graph" },
   { id := "t1", content := "T", score := 0.80, source := "tree" },
   { id := "v1", content := "V", score := 0.95, source := "vector" }]

/-- Saga effects of a fully successful run (vector and graph insertions both
succeed). -/
def allOkEffects : SagaEffects :=
  { insertChunksOk := true, vectorErrMsg := "", insertGraphOk := true,
    graphErrMsg := "", deleteDocOk := true, treeNodes := [],
    extract := fun _ => none }

/-- Saga effects of a run whose graph insertion fails and whose compensation
succeeds. -/
def graphFailEffects : SagaEffects :=
  { insertChunksOk := true, vectorErrMsg := "", insertGraphOk := false,
    graphErrMsg := "neo4j insertion failed", deleteDocOk := true,
    treeNodes := [], extract := fun _ => none }

/-- World holding a freshly created saga: status Pending, version 1, step
Parsing, empty stores and logs. -/
def freshWorld : SagaWorld :=
  { saga := { status := .pending, version := 1, currentStep := .parsing,
              errorMessage := "" },
    vectorPoints := 0, graphPayload := none, stepEvents := [],
    compensationAttempts := 0, criticalLogs := 0 }

/-- The three structural chunks of the happy-path scenario. -/
def scenarioChunks : List Chunk :=
  [{ content := "Ch1" }, { content := "Para A" }, { content := "Para B" }]

/-- Store fixture: one document (hash 42) whose only saga is Completed. -/
def storeCompleted : IngestStore :=
  { docs := [{ id := 1, fileHash := 42 }],
    sagas := [{ id := 1, documentId := 1, status := .completed,
                currentStep := .indexing, version := 3 }],
    nextDocId := 2, nextSagaId := 2 }

/-- Store fixture: one document (hash 42) whose only saga is Processing. -/
def storeProcessing : IngestStore :=
  { docs := [{ id := 1, fileHash := 42 }],
    sagas := [{ id := 1, documentId := 1, status := .processing,
                currentStep := .embedding, version := 2 }],
    nextDocId := 2, nextSagaId := 2 }

/-- Store fixture: one document (hash 42) and no saga. -/
def storeNoSaga : IngestStore :=
  { docs := [{ id := 1, fileHash := 42 }], sagas := [],
    nextDocId := 2, nextSagaId := 1 }

/-- Store fixture: empty store. -/
def storeEmpty : IngestStore :=
  { docs := [], sagas := [], nextDocId := 1, nextSagaId := 1 }

/-- Concrete generator oracles: decomposition fails (falling back to the
original query). -/
def c9Decomp : Except String String := .error "llm down"

/-- Concrete generator oracles: a retriever returning one vector result. -/
def c9Retr : Option (String → Except String (List SearchResult)) :=
  some fun _ => .ok [{ id := "x", content := "ctx", score := 1, source := "vector" }]

/-- Concrete generator oracles: retrieval critique keeps everything. -/
def c9EvalR : String → String → Bool := fun _ _ => true

/-- Concrete generator oracles: generation critique reports No Support. -/
def c9EvalGen : String → String → SupportLevel := fun _ _ => SupportLevel.noSupport

/-- Concrete generator oracles: the heavy LLM always answers "ans". -/
def c9Heavy : String → Except String String := fun _ => .ok "ans"

/-- The inner pass preserves the number of remaining elements. -/
theorem innerPass_length (key : SearchResult → ℚ) (front : SearchResult)
    (l : List SearchResult) : ((innerPass key front l).2).length = l.length := by
  induction l generalizing front with
  | nil => rfl
  | cons x xs ih =>
    by_cases h : key front < key x <;> simp [innerPass, h, ih]

/-- The inner pass permutes its input. -/
theorem innerPass_perm (key : SearchResult → ℚ) (front : SearchResult)
    (l : List SearchResult) :
    List.Perm ((innerPass key front l).1 :: (innerPass key front l).2) (front :: l) := by
  induction l generalizing front with
  | nil => exact List.Perm.refl _
  | cons x xs ih =>
    by_cases h : key front < key x
    · simp only [innerPass, if_pos h]
      exact (List.Perm.swap front _ _).trans ((ih x).cons front)
    · simp only [innerPass, if_neg h]
      exact ((List.Perm.swap x _ _).trans ((ih front).cons x)).trans
        (List.Perm.swap front x xs)

/-- The element the inner pass brings to the front has a maximal key. -/
theorem innerPass_le (key : SearchResult → ℚ) (front : SearchResult)
    (l : List SearchResult) :
    key front ≤ key (innerPass key front l).1 ∧
      ∀ y ∈ (innerPass key front l).2, key y ≤ key (innerPass key front l).1 := by
  induction l generalizing front with
  | nil => exact ⟨le_rfl, by simp [innerPass]⟩
  | cons x xs ih =>
    by_cases h : key front < key x
    · simp only [innerPass, if_pos h]
      refine ⟨le_of_lt (lt_of_lt_of_le h (ih x).1), ?_⟩
      intro y hy
      rcases List.mem_cons.mp hy with hy | hy
      · exact hy ▸ le_of_lt (lt_of_lt_of_le h (ih x).1)
      · exact (ih x).2 y hy
    · simp only [innerPass, if_neg h]
      refine ⟨(ih front).1, ?_⟩
      intro y hy
      rcases List.mem_cons.mp hy with hy | hy
      · exact hy ▸ le_trans (le_of_not_lt h) (ih front).1
      · exact (ih front).2 y hy

/-- The fueled sort permutes its input when given enough fuel. -/
theorem sortDescFuel_perm (key : SearchResult → ℚ) :
    ∀ (fuel : Nat) (l : List SearchResult), l.length ≤ fuel →
      List.Perm (sortDescFuel key fuel l) l := by
  intro fuel
  induction fuel with
  | zero =>
    intro l h
    cases l with
    | nil => exact List.Perm.refl _
    | cons x xs => simp at h
  | succ n ih =>
    intro l h
    cases l with
    | nil => exact List.Perm.refl _
    | cons x xs =>
      simp only [sortDescFuel]
      have hlen : (innerPass key x xs).2.length ≤ n := by
        rw [innerPass_length]
        simpa using h
      exact ((ih _ hlen).cons _).trans (innerPass_perm key x xs)

/-- The fueled sort produces a list sorted descending by key. -/
theorem sortDescFuel_sorted (key : SearchResult → ℚ) :
    ∀ (fuel : Nat) (l : List SearchResult), l.length ≤ fuel →
      (sortDescFuel key fuel l).Sorted (fun a b => key b ≤ key a) := by
  intro fuel
  induction fuel with
  | zero =>
    intro l h
    cases l with
    | nil => exact List.sorted_nil
    | cons x xs => simp at h
  | succ n ih =>
    intro l h
    cases l with
    | nil => exact List.sorted_nil
    | cons x xs =>
      simp only [sortDescFuel]
      rw [List.sorted_cons]
      have hlen : (innerPass key x xs).2.length ≤ n := by
        rw [innerPass_length]
        simpa using h
      refine ⟨?_, ih _ hlen⟩
      intro b hb
      have hb2 : b ∈ (innerPass key x xs).2 :=
        (sortDescFuel_perm key n _ hlen).mem_iff.mp hb
      exact (innerPass_le key x xs).2 b hb2

/-- The Go double-loop sort permutes its input. -/
theorem sortDesc_perm (key : SearchResult → ℚ) (l : List SearchResult) :
    List.Perm (sortDesc key l) l :=
  sortDescFuel_perm key l.length l le_rfl

/-- The Go double-loop sort sorts descending by key. -/
theorem sortDesc_sorted (key : SearchResult → ℚ) (l : List SearchResult) :
    (sortDesc key l).Sorted (fun a b => key b ≤ key a) :=
  sortDescFuel_sorted key l.length l le_rfl

/-- The skyline output is a permutation of the undominated input results. -/
theorem skylineRank_perm (l : List SearchResult) :
    List.Perm (skylineRank l) (skylineFilter l) := by
  unfold skylineRank
  by_cases h : l.length ≤ 1
  · rw [if_pos h]
    match l, h with
    | [], _ => simp [skylineFilter]
    | [x], _ =>
      simp [skylineFilter, dominatedIdx, List.range_succ]
  · rw [if_neg h]
    exact sortDesc_perm _ _

/-- C6: the skyline pruning output (a) contains no pair where one member is
strictly greater than another on both the vector and graph axes, (b) consists
exactly of the input results not strictly dominated on both axes by some
other input result, and (c) is sorted by the original score descending. -/
theorem skyline_rank_spec (l : List SearchResult) :
    (∀ a ∈ skylineRank l, ∀ b ∈ skylineRank l,
      ¬(vectorAxis a < vectorAxis b ∧ graphAxis a < graphAxis b)) ∧
    List.Perm (skylineRank l) (skylineFilter l) ∧
    (skylineRank l).Sorted (fun a b => b.score ≤ a.score) := by
  refine ⟨?_, skylineRank_perm l, ?_⟩
  · intro a ha b hb hdom
    have ha' : a ∈ skylineFilter l := (skylineRank_perm l).mem_iff.mp ha
    have hb' : b ∈ skylineFilter l := (skylineRank_perm l).mem_iff.mp hb
    unfold skylineFilter at ha' hb'
    obtain ⟨i, hi, hia⟩ := List.mem_map.mp ha'
    obtain ⟨j, hj, hjb⟩ := List.mem_map.mp hb'
    have hi_range := (List.mem_filter.mp hi).1
    have hi_nd := (List.mem_filter.mp hi).2
    have hj_range := (List.mem_filter.mp hj).1
    have hij : j ≠ i := by
      intro he
      rw [he, hia] at hjb
      rw [hjb] at hdom
      exact lt_irrefl _ hdom.1
    have hdi : dominatedIdx l i = true := by
      unfold dominatedIdx
      rw [List.any_eq_true]
      refine ⟨j, ?_, ?_⟩
      · rw [List.mem_range]
        exact List.mem_range.mp hj_range
      · simp only [Bool.and_eq_true, decide_eq_true_eq]
        exact ⟨⟨hij, by rw [hia, hjb]; exact hdom.1⟩, by rw [hia, hjb]; exact hdom.2⟩
    rw [hdi] at hi_nd
    simp at hi_nd
  · unfold skylineRank
    by_cases h : l.length ≤ 1
    · rw [if_pos h]
      match l, h with
      | [], _ => exact List.sorted_nil
      | [x], _ => exact List.sorted_singleton x
    · rw [if_neg h]
      exact sortDesc_sorted _ _

/-- C6 witness: instantiating the skyline theorem on the concrete two-element
input, the two output members do not dominate each other. -/
theorem skyline_rank_spec_witness :
    ¬(vectorAxis { id := "a", content := "A", score := 2, source := "vector" } <
        vectorAxis { id := "b", content := "B", score := 1, source := "graph" } ∧
      graphAxis { id := "a", content := "A", score := 2, source := "vector" } <
        graphAxis { id := "b", content := "B", score := 1, source := "graph" }) := by
  have heval : skylineRank c6Input =
      [{ id := "a", content := "A", score := 2, source := "vector" },
       { id := "b", content := "B", score := 1, source := "graph" }] := by
    norm_num [skylineRank, skylineFilter, dominatedIdx, sortDesc, sortDescFuel,
      innerPass, vectorAxis, graphAxis, c6Input, List.range_succ, List.getD,
      show ("vector" : String) ≠ "graph" from by decide]
  refine (skyline_rank_spec c6Input).1 _ ?_ _ ?_
  · rw [heval]; simp
  · rw [heval]; simp

/-- Looking up the bumped key adds the contribution. -/
theorem bumpScore_lookup_self (m : List (String × ℚ)) (k : String) (v : ℚ) :
    (List.lookup k (bumpScore m k v)).getD 0 = (List.lookup k m).getD 0 + v := by
  induction m with
  | nil => simp [bumpScore, List.lookup]
  | cons kv rest ih =>
    obtain ⟨k', v'⟩ := kv
    by_cases h : k' = k
    · subst h
      simp [bumpScore, List.lookup]
    · have hb : (k == k') = false := beq_eq_false_iff_ne.mpr (Ne.symm h)
      simp [bumpScore, List.lookup, h, hb, ih]

/-- Looking up a different key is unaffected by a bump. -/
theorem bumpScore_lookup_other (m : List (String × ℚ)) (k c : String) (v : ℚ)
    (h : c ≠ k) : List.lookup c (bumpScore m k v) = List.lookup c m := by
  have hck : (c == k) = false := beq_eq_false_iff_ne.mpr h
  induction m with
  | nil => simp [bumpScore, List.lookup, hck]
  | cons kv rest ih =>
    obtain ⟨k', v'⟩ := kv
    by_cases h2 : k' = k
    · subst h2
      simp [bumpScore, List.lookup, hck]
    · by_cases h3 : c = k'
      · subst h3
        simp [bumpScore, List.lookup, h2, ih]
      · have hb : (c == k') = false := beq_eq_false_iff_ne.mpr h3
        simp [bumpScore, List.lookup, h2, hb, ih]

/-- Folding bump operations accumulates, per key, the sum of the matching
contributions. -/
theorem accScores_lookup_aux (entries : List (String × ℚ × SearchResult)) :
    ∀ (m : List (String × ℚ)) (c : String),
      (List.lookup c (entries.foldl (fun m e => bumpScore m e.1 e.2.1) m)).getD 0 =
        (List.lookup c m).getD 0 +
          ((entries.filter fun e => e.1 == c).map fun e => e.2.1).sum := by
  induction entries with
  | nil => intro m c; simp
  | cons e es ih =>
    intro m c
    simp only [List.foldl_cons]
    rw [ih]
    by_cases h : e.1 = c
    · rw [List.filter_cons_of_pos (by simp [h])]
      rw [← h, bumpScore_lookup_self]
      simp [add_assoc]
    · rw [List.filter_cons_of_neg (by simp [h])]
      rw [bumpScore_lookup_other _ _ _ _ (fun hc => h hc.symm)]

/-- The accumulated score of a content key is the sum of its entries. -/
theorem accScores_lookup (entries : List (String × ℚ × SearchResult)) (c : String) :
    (List.lookup c (accScores entries)).getD 0 =
      ((entries.filter fun e => e.1 == c).map fun e => e.2.1).sum := by
  have h := accScores_lookup_aux entries [] c
  simpa [accScores] using h

/-- Filter-sum over the entries built from one engine group equals the
if-guarded sum over the group's ranks. -/
theorem entrySum_group (c : String) (w : Nat × SearchResult → ℚ)
    (L : List (Nat × SearchResult)) :
    (((L.map fun p => (p.2.content, w p, p.2)).filter fun e => e.1 == c).map
      fun e => e.2.1).sum
      = (L.map fun p => if p.2.content = c then w p else 0).sum := by
  induction L with
  | nil => simp
  | cons p ps ih =>
    simp only [List.map_cons]
    by_cases h : p.2.content = c
    · rw [List.filter_cons_of_pos (by simp [h])]
      simp [h, ih]
    · rw [List.filter_cons_of_neg (by simp [h])]
      simp [h, ih]

/-- The sum of entry contributions for a content key is its
specification-level fused score. -/
theorem entriesSum_eq_specScore (weights : EngineWeights) (l : List SearchResult)
    (c : String) :
    (((rrfEntries weights l).filter fun e => e.1 == c).map fun e => e.2.1).sum
      = specScore weights l c := by
  unfold rrfEntries specScore
  generalize groupBySource l = gs
  induction gs with
  | nil => simp
  | cons sg rest ih =>
    simp only [List.flatMap_cons, List.map_cons, List.filter_append,
      List.map_append, List.sum_append, List.sum_cons]
    rw [entrySum_group, ih]

/-- The first-seen fold keeps its keys without duplicates. -/
theorem firstSeen_nodup_aux (es : List (String × ℚ × SearchResult)) :
    ∀ m : List (String × SearchResult), (m.map Prod.fst).Nodup →
      (((es.foldl (fun m e =>
          if m.any (fun p => p.1 == e.1) then m else m ++ [(e.1, e.2.2)]) m)).map
        Prod.fst).Nodup := by
  induction es with
  | nil => intro m hm; simpa using hm
  | cons e es ih =>
    intro m hm
    simp only [List.foldl_cons]
    by_cases h : (m.any fun p => p.1 == e.1) = true
    · rw [if_pos h]
      exact ih m hm
    · rw [if_neg h]
      refine ih _ ?_
      have hnot : e.1 ∉ m.map Prod.fst := by
        intro hmem
        obtain ⟨p, hp, hpe⟩ := List.mem_map.mp hmem
        exact h (List.any_eq_true.mpr ⟨p, hp, by simp [hpe]⟩)
      simp [List.nodup_append, hm, hnot]

/-- The keys of the first-seen fold are exactly the keys already present plus
the keys of the processed entries. -/
theorem firstSeen_keys_aux (es : List (String × ℚ × SearchResult)) :
    ∀ (m : List (String × SearchResult)) (k : String),
      (k ∈ ((es.foldl (fun m e =>
          if m.any (fun p => p.1 == e.1) then m else m ++ [(e.1, e.2.2)]) m)).map
        Prod.fst) ↔
        k ∈ m.map Prod.fst ∨ k ∈ es.map (fun e => e.1) := by
  induction es with
  | nil => intro m k; simp
  | cons e es ih =>
    intro m k
    simp only [List.foldl_cons]
    by_cases h : (m.any fun p => p.1 == e.1) = true
    · rw [if_pos h]
      rw [ih]
      have he : e.1 ∈ m.map Prod.fst := by
        obtain ⟨p, hp, hpe⟩ := List.any_eq_true.mp h
        exact List.mem_map.mpr ⟨p, hp, beq_iff_eq.mp hpe⟩
      simp only [List.map_cons, List.mem_cons]
      constructor
      · tauto
      · rintro (hk | hk | hk)
        · tauto
        · exact Or.inl (hk ▸ he)
        · tauto
    · rw [if_neg h]
      rw [ih]
      simp only [List.map_append, List.map_cons, List.map_nil, List.mem_append,
        List.mem_cons, List.mem_singleton, List.not_mem_nil, or_false]
      tauto

/-- Every pair produced by the first-seen fold comes from one of the
processed entries. -/
theorem firstSeen_provenance_aux (es : List (String × ℚ × SearchResult)) :
    ∀ (m : List (String × SearchResult)) (kr : String × SearchResult),
      kr ∈ (es.foldl (fun m e =>
          if m.any (fun p => p.1 == e.1) then m else m ++ [(e.1, e.2.2)]) m) →
        kr ∈ m ∨ ∃ e ∈ es, kr = (e.1, e.2.2) := by
  induction es with
  | nil => intro m kr h; exact Or.inl h
  | cons e es ih =>
    intro m kr h
    simp only [List.foldl_cons] at h
    by_cases hc : (m.any fun p => p.1 == e.1) = true
    · rw [if_pos hc] at h
      rcases ih m kr h with hm | ⟨e', he', hkr⟩
      · exact Or.inl hm
      · exact Or.inr ⟨e', List.mem_cons_of_mem e he', hkr⟩
    · rw [if_neg hc] at h
      rcases ih _ kr h with hm | ⟨e', he', hkr⟩
      · rcases List.mem_append.mp hm with hm | hm
        · exact Or.inl hm
        · exact Or.inr ⟨e, List.mem_cons_self e es, by simpa using hm⟩
      · exact Or.inr ⟨e', List.mem_cons_of_mem e he', hkr⟩

/-- The dedup key of every contribution entry is the content of its result. -/
theorem rrfEntries_key (weights : EngineWeights) (l : List SearchResult) :
    ∀ e ∈ rrfEntries weights l, e.1 = e.2.2.content := by
  intro e he
  unfold rrfEntries at he
  obtain ⟨sg, _, he2⟩ := List.mem_flatMap.mp he
  obtain ⟨p, _, he3⟩ := List.mem_map.mp he2
  rw [← he3]

/-- Membership in the flattened groups after inserting one result. -/
theorem mem_flatten_addGrouped (x r : SearchResult) :
    ∀ gs : List (String × List SearchResult),
      (x ∈ (addGrouped gs r).flatMap (fun sg => sg.2)) ↔
        (x ∈ gs.flatMap (fun sg => sg.2) ∨ x = r) := by
  intro gs
  induction gs with
  | nil => simp [addGrouped]
  | cons sg rest ih =>
    obtain ⟨s, g⟩ := sg
    by_cases h : s = r.source
    · simp only [addGrouped, if_pos h, List.flatMap_cons, List.mem_append,
        List.mem_singleton]
      tauto
    · simp only [addGrouped, if_neg h, List.flatMap_cons, List.mem_append, ih]
      tauto

/-- Membership in the flattened source groups of a fold over results. -/
theorem mem_flatten_groupAux (x : SearchResult) :
    ∀ (l : List SearchResult) (gs : List (String × List SearchResult)),
      x ∈ (l.foldl addGrouped gs).flatMap (fun sg => sg.2) ↔
        x ∈ gs.flatMap (fun sg => sg.2) ∨ x ∈ l := by
  intro l
  induction l with
  | nil => intro gs; simp
  | cons r rs ih =>
    intro gs
    simp only [List.foldl_cons]
    rw [ih (addGrouped gs r), mem_flatten_addGrouped]
    simp only [List.mem_cons]
    tauto

/-- A result appears in the flattened source groups iff it appears in the
input. -/
theorem mem_flatten_groupBySource (x : SearchResult) (l : List SearchResult) :
    x ∈ (groupBySource l).flatMap (fun sg => sg.2) ↔ x ∈ l := by
  unfold groupBySource
  rw [mem_flatten_groupAux]
  simp

/-- A content string has a contribution entry iff some input result carries
it. -/
theorem rrfEntries_keys_mem (weights : EngineWeights) (l : List SearchResult)
    (c : String) :
    c ∈ (rrfEntries weights l).map (fun e => e.1) ↔
      c ∈ l.map (fun r => r.content) := by
  constructor
  · intro h
    obtain ⟨e, he, hc⟩ := List.mem_map.mp h
    unfold rrfEntries at he
    obtain ⟨sg, hsg, he2⟩ := List.mem_flatMap.mp he
    obtain ⟨p, hp, he3⟩ := List.mem_map.mp he2
    have hx : p.2 ∈ sg.2 := by
      have h2 : p.2 ∈ sg.2.enum.map Prod.snd := List.mem_map_of_mem Prod.snd hp
      rwa [List.enum_map_snd] at h2
    have hmem : p.2 ∈ l :=
      (mem_flatten_groupBySource _ _).mp (List.mem_flatMap.mpr ⟨sg, hsg, hx⟩)
    refine List.mem_map.mpr ⟨p.2, hmem, ?_⟩
    rw [← hc, ← he3]
  · intro h
    obtain ⟨r, hr, hc⟩ := List.mem_map.mp h
    have h2 : r ∈ (groupBySource l).flatMap (fun sg => sg.2) :=
      (mem_flatten_groupBySource _ _).mpr hr
    obtain ⟨sg, hsg, hrsg⟩ := List.mem_flatMap.mp h2
    have h3 : r ∈ sg.2.enum.map Prod.snd := by
      rw [List.enum_map_snd]
      exact hrsg
    obtain ⟨p, hp, hpr⟩ := List.mem_map.mp h3
    refine List.mem_map.mpr ⟨(p.2.content, effWeight weights sg.1 *
      (1 / (60 + (p.1 : ℚ) + 1)), p.2), ?_, by rw [hpr, hc]⟩
    unfold rrfEntries
    exact List.mem_flatMap.mpr ⟨sg, hsg, List.mem_map.mpr ⟨p, hp, rfl⟩⟩

/-- Every first-seen pair has its result's content as key. -/
theorem firstSeen_key_content (weights : EngineWeights) (l : List SearchResult) :
    ∀ kr ∈ firstSeen (rrfEntries weights l), kr.1 = kr.2.content := by
  intro kr hkr
  unfold firstSeen at hkr
  rcases firstSeen_provenance_aux _ _ _ hkr with hm | ⟨e, he, hkre⟩
  · simp at hm
  · rw [hkre]
    exact rrfEntries_key weights l e he

/-- The contents of the fused list are the first-seen keys. -/
theorem wrrfAux_fused_contents (weights : EngineWeights) (l : List SearchResult) :
    ((firstSeen (rrfEntries weights l)).map fun kr =>
        ({ kr.2 with score := (List.lookup kr.1
            (accScores (rrfEntries weights l))).getD 0 } : SearchResult)).map
      (fun r => r.content)
      = (firstSeen (rrfEntries weights l)).map Prod.fst := by
  rw [List.map_map]
  exact List.map_eq_map_iff.mpr fun kr hkr =>
    (firstSeen_key_content weights l kr hkr).symm

/-- The fused output deduplicates contents. -/
theorem wrrfAux_nodup (weights : EngineWeights) (l : List SearchResult) :
    ((performWeightedRRF weights l).map (fun r => r.content)).Nodup := by
  by_cases hl : l = []
  · subst hl
    simp [performWeightedRRF]
  · rw [performWeightedRRF, if_neg hl]
    refine ((sortDesc_perm _ _).map (fun r => r.content)).nodup_iff.mpr ?_
    rw [wrrfAux_fused_contents]
    have h := firstSeen_nodup_aux (rrfEntries weights l) [] (by simp)
    unfold firstSeen
    exact h

/-- A content string survives into the fused output iff some input result
carries it. -/
theorem wrrfAux_mem (weights : EngineWeights) (l : List SearchResult) (c : String) :
    c ∈ (performWeightedRRF weights l).map (fun r => r.content) ↔
      c ∈ l.map (fun r => r.content) := by
  by_cases hl : l = []
  · subst hl
    simp [performWeightedRRF]
  · rw [performWeightedRRF, if_neg hl]
    rw [((sortDesc_perm _ _).map (fun r => r.content)).mem_iff]
    rw [wrrfAux_fused_contents]
    have h := firstSeen_keys_aux (rrfEntries weights l) [] c
    unfold firstSeen
    rw [h]
    simp only [List.map_nil, List.not_mem_nil, false_or]
    exact rrfEntries_keys_mem weights l c

/-- Every fused result carries the specification-level fused score of its
content. -/
theorem wrrfAux_score (weights : EngineWeights) (l : List SearchResult) :
    ∀ r ∈ performWeightedRRF weights l, r.score = specScore weights l r.content := by
  by_cases hl : l = []
  · subst hl
    simp [performWeightedRRF]
  · rw [performWeightedRRF, if_neg hl]
    intro r hr
    have hr2 := (sortDesc_perm _ _).mem_iff.mp hr
    obtain ⟨kr, hkr, hrkr⟩ := List.mem_map.mp hr2
    have hkey := firstSeen_key_content weights l kr hkr
    rw [← hrkr]
    show (List.lookup kr.1 (accScores (rrfEntries weights l))).getD 0
      = specScore weights l _
    rw [accScores_lookup, entriesSum_eq_specScore]
    congr 1

/-- The fused output is sorted by fused score descending. -/
theorem wrrfAux_sorted (weights : EngineWeights) (l : List SearchResult) :
    (performWeightedRRF weights l).Sorted (fun a b => b.score ≤ a.score) := by
  by_cases hl : l = []
  · subst hl
    simp [performWeightedRRF]
  · rw [performWeightedRRF, if_neg hl]
    exact sortDesc_sorted _ _

/-- C5: weighted RRF scores every result `w_engine * 1/(60 + r)` at its
1-based per-engine rank (summed over duplicate contents, with missing weights
defaulting to 0.33 inside effWeight/specScore), deduplicates by exact content
string, and sorts by fused score descending; for the summary intent weights
(graph 0.2, tree 0.7, vector 0.1) and one result per engine at rank 1, the
fused scores satisfy tree > graph > vector. -/
theorem weighted_rrf_spec (weights : EngineWeights) (l : List SearchResult) :
    ((performWeightedRRF weights l).map (fun r => r.content)).Nodup ∧
    (∀ c : String, c ∈ (performWeightedRRF weights l).map (fun r => r.content) ↔
      c ∈ l.map (fun r => r.content)) ∧
    (∀ r ∈ performWeightedRRF weights l, r.score = specScore weights l r.content) ∧
    (performWeightedRRF weights l).Sorted (fun a b => b.score ≤ a.score) ∧
    getWeights QueryIntent.summary =
      [("graph", 0.20), ("tree", 0.70), ("vector", 0.10)] ∧
    (∃ rt ∈ performWeightedRRF (getWeights QueryIntent.summary) c5Input,
      rt.content = "T") ∧
    (∃ rg ∈ performWeightedRRF (getWeights QueryIntent.summary) c5Input,
      rg.content = "G") ∧
    (∃ rv ∈ performWeightedRRF (getWeights QueryIntent.summary) c5Input,
      rv.content = "V") ∧
    (∀ rt ∈ performWeightedRRF (getWeights QueryIntent.summary) c5Input,
      ∀ rg ∈ performWeightedRRF (getWeights QueryIntent.summary) c5Input,
      ∀ rv ∈ performWeightedRRF (getWeights QueryIntent.summary) c5Input,
      rt.content = "T" → rg.content = "G" → rv.content = "V" →
        rv.score < rg.score ∧ rg.score < rt.score) := by
  have hexT : ∃ rt ∈ performWeightedRRF (getWeights QueryIntent.summary) c5Input,
      rt.content = "T" := by
    have h := (wrrfAux_mem (getWeights QueryIntent.summary) c5Input "T").mpr
      (by simp [c5Input])
    obtain ⟨rt, hrt, hc⟩ := List.mem_map.mp h
    exact ⟨rt, hrt, hc⟩
  have hexG : ∃ rg ∈ performWeightedRRF (getWeights QueryIntent.summary) c5Input,
      rg.content = "G" := by
    have h := (wrrfAux_mem (getWeights QueryIntent.summary) c5Input "G").mpr
      (by simp [c5Input])
    obtain ⟨rg, hrg, hc⟩ := List.mem_map.mp h
    exact ⟨rg, hrg, hc⟩
  have hexV : ∃ rv ∈ performWeightedRRF (getWeights QueryIntent.summary) c5Input,
      rv.content = "V" := by
    have h := (wrrfAux_mem (getWeights QueryIntent.summary) c5Input "V").mpr
      (by simp [c5Input])
    obtain ⟨rv, hrv, hc⟩ := List.mem_map.mp h
    exact ⟨rv, hrv, hc⟩
  have hGne : ("graph" : String) ≠ "tree" := by decide
  have hGne2 : ("graph" : String) ≠ "vector" := by decide
  have hTne : ("tree" : String) ≠ "vector" := by decide
  have hb1 : (("tree" : String) == "graph") = false := by decide
  have hb2 : (("vector" : String) == "graph") = false := by decide
  have hb3 : (("vector" : String) == "tree") = false := by decide
  have hc1 : ("G" : String) ≠ "T" := by decide
  have hc2 : ("V" : String) ≠ "T" := by decide
  have hc3 : ("T" : String) ≠ "G" := by decide
  have hc4 : ("V" : String) ≠ "G" := by decide
  have hc5 : ("G" : String) ≠ "V" := by decide
  have hc6 : ("T" : String) ≠ "V" := by decide
  have hsT : specScore (getWeights QueryIntent.summary) c5Input "T" = 7 / 610 := by
    norm_num [specScore, groupBySource, addGrouped, c5Input, effWeight, getWeights,
      List.lookup, List.enum, List.enumFrom, hGne, hGne2, hTne, hb1, hb2, hb3,
      hc1, hc2, hc3, hc4, hc5, hc6]
  have hsG : specScore (getWeights QueryIntent.summary) c5Input "G" = 1 / 305 := by
    norm_num [specScore, groupBySource, addGrouped, c5Input, effWeight, getWeights,
      List.lookup, List.enum, List.enumFrom, hGne, hGne2, hTne, hb1, hb2, hb3,
      hc1, hc2, hc3, hc4, hc5, hc6]
  have hsV : specScore (getWeights QueryIntent.summary) c5Input "V" = 1 / 610 := by
    norm_num [specScore, groupBySource, addGrouped, c5Input, effWeight, getWeights,
      List.lookup, List.enum, List.enumFrom, hGne, hGne2, hTne, hb1, hb2, hb3,
      hc1, hc2, hc3, hc4, hc5, hc6]
  refine ⟨wrrfAux_nodup weights l, fun c => wrrfAux_mem weights l c,
    wrrfAux_score weights l, wrrfAux_sorted weights l, rfl, hexT, hexG, hexV, ?_⟩
  intro rt hrt rg hrg rv hrv hct hcg hcv
  have ht := wrrfAux_score _ _ rt hrt
  have hg := wrrfAux_score _ _ rg hrg
  have hv := wrrfAux_score _ _ rv hrv
  rw [hct, hsT] at ht
  rw [hcg, hsG] at hg
  rw [hcv, hsV] at hv
  rw [ht, hg, hv]
  norm_num

/-- C5 witness: on the concrete summary-intent scenario the fused list holds
one result per content with tree above graph above vector. -/
theorem weighted_rrf_spec_witness :
    ∃ rt ∈ performWeightedRRF (getWeights QueryIntent.summary) c5Input,
    ∃ rg ∈ performWeightedRRF (getWeights QueryIntent.summary) c5Input,
    ∃ rv ∈ performWeightedRRF (getWeights QueryIntent.summary) c5Input,
      rt.content = "T" ∧ rg.content = "G" ∧ rv.content = "V" ∧
      rv.score < rg.score ∧ rg.score < rt.score := by
  obtain ⟨_, _, _, _, _, ⟨rt, hrt, hct⟩, ⟨rg, hrg, hcg⟩, ⟨rv, hrv, hcv⟩, hord⟩ :=
    weighted_rrf_spec (getWeights QueryIntent.summary) c5Input
  exact ⟨rt, hrt, rg, hrg, rv, hrv, hct, hcg, hcv,
    hord rt hrt rg hrg rv hrv hct hcg hcv⟩

/-- C2: a version-checked saga update with a stale observed version fails
with ConcurrentUpdate leaving the row unchanged; with the matching observed
version it succeeds and the persisted version strictly increases to the
observed version plus one. -/
theorem update_saga_status_version_check (row : SagaRow) (vStale vMatch : Nat)
    (status : SagaStatus) (step : IngestStep) (msg : String)
    (hne : vStale ≠ row.version) (heq : vMatch = row.version) :
    updateSagaStatus row vStale status step msg =
        (row, .error DbError.concurrentUpdate) ∧
      (updateSagaStatus row vMatch status step msg).2 = .ok () ∧
      (updateSagaStatus row vMatch status step msg).1.version = vMatch + 1 ∧
      row.version < (updateSagaStatus row vMatch status step msg).1.version := by
  subst heq
  refine ⟨?_, ?_, ?_, ?_⟩
  · rw [updateSagaStatus, if_neg (fun h => hne h.symm)]
  · rw [updateSagaStatus, if_pos rfl]
  · rw [updateSagaStatus, if_pos rfl]
  · rw [updateSagaStatus, if_pos rfl]
    exact Nat.lt_succ_self _

/-- C2 witness: the version check evaluated on a concrete version-1 row with
observed versions 5 (stale) and 1 (matching). -/
theorem update_saga_status_version_check_witness :
    updateSagaStatus
        { status := .pending, version := 1, currentStep := .parsing,
          errorMessage := "" } 5 SagaStatus.processing IngestStep.embedding "" =
      ({ status := .pending, version := 1, currentStep := .parsing,
         errorMessage := "" }, .error DbError.concurrentUpdate) ∧
    (updateSagaStatus
        { status := .pending, version := 1, currentStep := .parsing,
          errorMessage := "" } 1 SagaStatus.processing IngestStep.embedding "").2 =
      .ok () ∧
    (updateSagaStatus
        { status := .pending, version := 1, currentStep := .parsing,
          errorMessage := "" } 1 SagaStatus.processing IngestStep.embedding
        "").1.version = 2 ∧
    ({ status := .pending, version := 1, currentStep := .parsing,
       errorMessage := "" } : SagaRow).version <
      (updateSagaStatus
        { status := .pending, version := 1, currentStep := .parsing,
          errorMessage := "" } 1 SagaStatus.processing IngestStep.embedding
        "").1.version :=
  update_saga_status_version_check
    { status := .pending, version := 1, currentStep := .parsing,
      errorMessage := "" } 5 1 SagaStatus.processing IngestStep.embedding ""
    (by decide) rfl

/-- C1: when the vector insertion succeeds and the graph insertion fails,
the run returns GraphInsertionFailed, the saga row ends Failed at step
Indexing (in both compensation outcomes), compensation is attempted, and
either the vector store holds zero points for the document or a critical
compensation-failure record was emitted. -/
theorem saga_compensation_on_graph_failure (eff : SagaEffects) (sagaVersion : Nat)
    (strID : String) (chunks : List Chunk) (graphNodes : List GNode) (w : SagaWorld)
    (hv : w.saga.version = sagaVersion) (hc : eff.insertChunksOk = true)
    (hg : eff.insertGraphOk = false) :
    (runIngestionSaga eff sagaVersion strID chunks graphNodes w).1 =
        .error SagaError.graphInsertionFailed ∧
      (runIngestionSaga eff sagaVersion strID chunks graphNodes w).2.saga.status =
        SagaStatus.failed ∧
      (runIngestionSaga eff sagaVersion strID chunks graphNodes w).2.saga.currentStep =
        IngestStep.indexing ∧
      (runIngestionSaga eff sagaVersion strID chunks graphNodes w).2.compensationAttempts =
        w.compensationAttempts + 1 ∧
      ((runIngestionSaga eff sagaVersion strID chunks graphNodes w).2.vectorPoints = 0 ∨
        (runIngestionSaga eff sagaVersion strID chunks graphNodes w).2.criticalLogs =
          w.criticalLogs + 1) := by
  subst hv
  cases hdel : eff.deleteDocOk <;>
    simp [runIngestionSaga, updateSagaStatus, hc, hg, hdel]

/-- C1 witness: the compensation-success and compensation-failure outcomes
evaluated on a fresh version-1 saga with the graph insertion failing. -/
theorem saga_compensation_on_graph_failure_witness :
    (runIngestionSaga graphFailEffects 1 "2" scenarioChunks [] freshWorld).1 =
        .error SagaError.graphInsertionFailed ∧
      (runIngestionSaga graphFailEffects 1 "2" scenarioChunks [] freshWorld).2.saga.status =
        SagaStatus.failed ∧
      (runIngestionSaga graphFailEffects 1 "2" scenarioChunks [] freshWorld).2.saga.currentStep =
        IngestStep.indexing ∧
      (runIngestionSaga graphFailEffects 1 "2" scenarioChunks [] freshWorld).2.compensationAttempts =
        freshWorld.compensationAttempts + 1 ∧
      ((runIngestionSaga graphFailEffects 1 "2" scenarioChunks [] freshWorld).2.vectorPoints = 0 ∨
        (runIngestionSaga graphFailEffects 1 "2" scenarioChunks [] freshWorld).2.criticalLogs =
          freshWorld.criticalLogs + 1) :=
  saga_compensation_on_graph_failure graphFailEffects 1 "2" scenarioChunks []
    freshWorld rfl rfl rfl

/-- C4 counterexample: a fully successful run on a freshly created saga
(version 1) ends with the persisted version equal to 3, so the claimed bound
of at least 4 fails. -/
theorem saga_success_version_counterexample :
    (runIngestionSaga allOkEffects 1 "1" scenarioChunks [] freshWorld).2.saga.version = 3 ∧
      ¬(4 ≤ (runIngestionSaga allOkEffects 1 "1" scenarioChunks [] freshWorld).2.saga.version) := by
  decide

/-- C4 amended: a fully successful run on a freshly created saga (status
Pending, version 1) returns ok and leaves the row Completed at step Indexing
with version exactly 3 (the run performs two version-checked updates), hence
at least 3. -/
theorem saga_success_final_state (eff : SagaEffects) (strID : String)
    (chunks : List Chunk) (graphNodes : List GNode) (w : SagaWorld)
    (hv : w.saga.version = 1) (hp : w.saga.status = SagaStatus.pending)
    (hc : eff.insertChunksOk = true) (hg : eff.insertGraphOk = true) :
    (runIngestionSaga eff 1 strID chunks graphNodes w).1 = .ok () ∧
      (runIngestionSaga eff 1 strID chunks graphNodes w).2.saga.status =
        SagaStatus.completed ∧
      (runIngestionSaga eff 1 strID chunks graphNodes w).2.saga.currentStep =
        IngestStep.indexing ∧
      (runIngestionSaga eff 1 strID chunks graphNodes w).2.saga.version = 3 ∧
      3 ≤ (runIngestionSaga eff 1 strID chunks graphNodes w).2.saga.version := by
  simp [runIngestionSaga, updateSagaStatus, hv, hc, hg]

/-- C4 witness for the amended claim: the happy-path run on the fresh
version-1 saga. -/
theorem saga_success_final_state_witness :
    (runIngestionSaga allOkEffects 1 "1" scenarioChunks [] freshWorld).1 = .ok () ∧
      (runIngestionSaga allOkEffects 1 "1" scenarioChunks [] freshWorld).2.saga.status =
        SagaStatus.completed ∧
      (runIngestionSaga allOkEffects 1 "1" scenarioChunks [] freshWorld).2.saga.currentStep =
        IngestStep.indexing ∧
      (runIngestionSaga allOkEffects 1 "1" scenarioChunks [] freshWorld).2.saga.version = 3 ∧
      3 ≤ (runIngestionSaga allOkEffects 1 "1" scenarioChunks [] freshWorld).2.saga.version :=
  saga_success_final_state allOkEffects "1" scenarioChunks [] freshWorld rfl rfl rfl rfl

/-- C3: StartOrResumeIngestion refuses with AlreadyIngested (creating no
rows) when the document's latest saga is Completed, returns the latest saga
unchanged when it is not Completed, creates a new Pending saga at step
Parsing for an existing saga-less document, and otherwise inserts the
document first and then creates the new Pending saga. -/
theorem start_or_resume_ingestion_cases (st : IngestStore) (hash : Nat) :
    (∀ d s, getDocumentByHash st hash = some d →
      getLatestSagaByDocumentID st d.id = some s → s.status = SagaStatus.completed →
      startOrResumeIngestion st hash = (.error IngestError.alreadyIngested, st)) ∧
    (∀ d s, getDocumentByHash st hash = some d →
      getLatestSagaByDocumentID st d.id = some s → s.status ≠ SagaStatus.completed →
      startOrResumeIngestion st hash = (.ok s, st)) ∧
    (∀ d, getDocumentByHash st hash = some d →
      getLatestSagaByDocumentID st d.id = none →
      ∃ s : SagaRec, startOrResumeIngestion st hash =
          (.ok s, { st with sagas := s :: st.sagas,
                            nextSagaId := st.nextSagaId + 1 }) ∧
        s.status = SagaStatus.pending ∧ s.currentStep = IngestStep.parsing ∧
        s.version = 1 ∧ s.documentId = d.id) ∧
    (getDocumentByHash st hash = none →
      ∃ (d : DocRow) (s : SagaRec), startOrResumeIngestion st hash =
          (.ok s, { docs := d :: st.docs, sagas := s :: st.sagas,
                    nextDocId := st.nextDocId + 1,
                    nextSagaId := st.nextSagaId + 1 }) ∧
        d.fileHash = hash ∧ s.documentId = d.id ∧ s.status = SagaStatus.pending ∧
        s.currentStep = IngestStep.parsing ∧ s.version = 1) := by
  refine ⟨?_, ?_, ?_, ?_⟩
  · intro d s hd hs hcomp
    simp only [startOrResumeIngestion, hd, hs]
    simp [hcomp]
  · intro d s hd hs hcomp
    simp only [startOrResumeIngestion, hd, hs]
    simp [hcomp]
  · intro d hd hs
    simp only [startOrResumeIngestion, hd, hs]
    exact ⟨_, rfl, rfl, rfl, rfl, rfl⟩
  · intro hd
    simp only [startOrResumeIngestion, hd]
    exact ⟨{ id := st.nextDocId, fileHash := hash }, _, rfl, rfl, rfl, rfl, rfl, rfl⟩

/-- C3 witness: the four cases evaluated on concrete stores — a completed
saga refuses, a processing saga resumes, a saga-less document gets a new
Pending saga, and an unknown hash creates the document first. -/
theorem start_or_resume_ingestion_cases_witness :
    startOrResumeIngestion storeCompleted 42 =
        (.error IngestError.alreadyIngested, storeCompleted) ∧
      startOrResumeIngestion storeProcessing 42 =
        (.ok { id := 1, documentId := 1, status := .processing,
               currentStep := .embedding, version := 2 }, storeProcessing) ∧
      (∃ s : SagaRec, startOrResumeIngestion storeNoSaga 42 =
          (.ok s, { storeNoSaga with
                    sagas := s :: storeNoSaga.sagas,
                    nextSagaId := storeNoSaga.nextSagaId + 1 }) ∧
        s.status = SagaStatus.pending ∧ s.currentStep = IngestStep.parsing ∧
        s.version = 1 ∧ s.documentId = 1) ∧
      (∃ (d : DocRow) (s : SagaRec), startOrResumeIngestion storeEmpty 42 =
          (.ok s, { docs := d :: storeEmpty.docs, sagas := s :: storeEmpty.sagas,
                    nextDocId := storeEmpty.nextDocId + 1,
                    nextSagaId := storeEmpty.nextSagaId + 1 }) ∧
        d.fileHash = 42 ∧ s.documentId = d.id ∧ s.status = SagaStatus.pending ∧
        s.currentStep = IngestStep.parsing ∧ s.version = 1) := by
  refine ⟨?_, ?_, ?_, ?_⟩
  · exact (start_or_resume_ingestion_cases storeCompleted 42).1
      { id := 1, fileHash := 42 }
      { id := 1, documentId := 1, status := .completed,
        currentStep := .indexing, version := 3 }
      (by decide) (by decide) rfl
  · exact (start_or_resume_ingestion_cases storeProcessing 42).2.1
      { id := 1, fileHash := 42 }
      { id := 1, documentId := 1, status := .processing,
        currentStep := .embedding, version := 2 }
      (by decide) (by decide) (by decide)
  · exact (start_or_resume_ingestion_cases storeNoSaga 42).2.2.1
      { id := 1, fileHash := 42 } (by decide) (by decide)
  · exact (start_or_resume_ingestion_cases storeEmpty 42).2.2.2 (by decide)

/-- Taking up to the clamped bound is taking up to the raw bound. -/
theorem take_min_length {α : Type} (L : List α) (k : Nat) :
    L.take (min k L.length) = L.take k := by
  by_cases h : k ≤ L.length
  · rw [min_eq_left h]
  · rw [min_eq_right (le_of_not_le h), List.take_length,
      List.take_all_of_le (le_of_not_le h)]

/-- Each dispatched slice is a plain take of the dropped tail. -/
theorem batchSlices_eq (bs : Nat) (texts : List String) :
    batchSlices bs texts = (List.range (numBatches bs texts)).map
      (fun i => (texts.drop (i * bs)).take bs) := by
  unfold batchSlices
  refine List.map_eq_map_iff.mpr fun i _ => ?_
  dsimp only
  have h1 : min (i * bs + bs) texts.length - i * bs
      = min bs (texts.length - i * bs) := by omega
  rw [h1, ← List.length_drop, take_min_length]

/-- Concatenating the consecutive `bs`-sized slices of a list recovers its
`m * bs`-prefix. -/
theorem flatMap_slices_take (bs : Nat) :
    ∀ (m : Nat) (l : List String),
      (List.range m).flatMap (fun i => (l.drop (i * bs)).take bs) = l.take (m * bs) := by
  intro m
  induction m with
  | zero => intro l; simp
  | succ m ih =>
    intro l
    rw [List.range_succ_eq_map, List.flatMap_cons, List.flatMap_map]
    have h2 : ∀ i : Nat, (l.drop ((i + 1) * bs)).take bs
        = ((l.drop bs).drop (i * bs)).take bs := by
      intro i
      rw [List.drop_drop, Nat.succ_mul, Nat.add_comm (i * bs) bs]
    rw [List.flatMap_congr (fun i _ => h2 i)]
    rw [ih (l.drop bs)]
    simp only [Nat.zero_mul, List.drop_zero]
    rw [← List.take_add]
    congr 1
    ring

/-- There are enough batches to cover every input index. -/
theorem numBatches_mul_ge (bs : Nat) (texts : List String) (hbs : 1 ≤ bs) :
    texts.length ≤ numBatches bs texts * bs := by
  unfold numBatches
  have hdm := Nat.div_add_mod (texts.length + bs - 1) bs
  have hlt : (texts.length + bs - 1) % bs < bs := Nat.mod_lt _ (by omega)
  rw [Nat.mul_comm]
  omega

/-- Concatenating all dispatched slices recovers the input text list. -/
theorem flatten_batchSlices (bs : Nat) (texts : List String) (hbs : 1 ≤ bs) :
    (batchSlices bs texts).flatMap (fun b => b) = texts := by
  rw [batchSlices_eq, List.flatMap_map, flatMap_slices_take]
  exact List.take_all_of_le (numBatches_mul_ge bs texts hbs)

/-- C7: when every dispatched batch succeeds the batcher returns exactly one
result per input in input order with `output[i].text = input[i]`; the empty
input returns `([], 0)` for every embedding client (so without calling it);
and any failing batch aborts with an error and no partial results. -/
theorem embedding_batcher_spec {α : Type} (embed : List String → Except String (List α))
    (bs : Nat) (texts : List String) :
    generateEmbeddingsBatched embed bs [] = some (.ok ([], 0)) ∧
    (1 ≤ bs →
      (∀ b vs, embed b = .ok vs → vs.length = b.length) →
      (∀ b ∈ batchSlices bs texts, ∃ vs, embed b = .ok vs) →
      ∃ out : List (EmbResult α), generateEmbeddingsBatched embed bs texts =
          some (.ok (out, 10 * (texts.length : Int))) ∧
        out.map (fun r => r.text) = texts ∧
        out.length = texts.length ∧
        ∀ i : Nat, (out.get? i).map (fun r => r.text) = texts.get? i) ∧
    (1 ≤ bs →
      (∃ b ∈ batchSlices bs texts, ∃ e, embed b = .error e) →
      ∃ e2, generateEmbeddingsBatched embed bs texts = some (.error e2)) := by
  refine ⟨by simp [generateEmbeddingsBatched], ?_, ?_⟩
  · intro hbs hlen hok
    by_cases hn : texts.length = 0
    · have ht : texts = [] := List.length_eq_zero.mp hn
      subst ht
      exact ⟨[], by simp [generateEmbeddingsBatched], by simp, by simp,
        fun i => by simp⟩
    · rw [generateEmbeddingsBatched, if_neg hn, if_neg (by omega : ¬ bs = 0)]
      have hnone : (((batchSlices bs texts).map fun b => (b, embed b)).enum.findSome?
          (fun ip =>
            match ip.2.2 with
            | .error e => some ("batch " ++ toString ip.1 ++ " failed: " ++ e)
            | .ok _ => none)) = none := by
        rw [List.findSome?_eq_none_iff]
        intro ip hip
        have hip2 : ip.2 ∈ ((batchSlices bs texts).map fun b => (b, embed b)) := by
          have h3 := List.mem_map_of_mem Prod.snd hip
          rwa [List.enum_map_snd] at h3
        obtain ⟨b, hb, hbip⟩ := List.mem_map.mp hip2
        obtain ⟨vs, hvs⟩ := hok b hb
        rw [← hbip]
        simp [hvs]
      simp only [hnone]
      have hmap : ((((batchSlices bs texts).map fun b => (b, embed b)).flatMap
          fun p =>
            match p.2 with
            | .ok vs => (p.1.zip vs).map fun tv =>
                ({ text := tv.1, dense := tv.2 } : EmbResult α)
            | .error _ => []).map fun r => r.text) = texts := by
        rw [List.flatMap_map, List.map_flatMap]
        have hcong : ∀ b ∈ batchSlices bs texts,
            ((match embed b with
              | .ok vs => (b.zip vs).map fun tv : String × α =>
                  ({ text := tv.1, dense := tv.2 } : EmbResult α)
              | .error _ => ([] : List (EmbResult α))).map
              fun r : EmbResult α => r.text) = b := by
          intro b hb
          obtain ⟨vs, hvs⟩ := hok b hb
          rw [hvs]
          rw [List.map_map]
          exact List.map_fst_zip b vs (by rw [hlen b vs hvs])
        rw [List.flatMap_congr hcong]
        exact flatten_batchSlices bs texts hbs
      refine ⟨_, rfl, hmap, ?_, ?_⟩
      · simpa using congrArg List.length hmap
      · intro i
        rw [← List.get?_map]
        exact congrArg (fun L => L.get? i) hmap
  · rintro hbs ⟨b, hb, e, he⟩
    by_cases hn : texts.length = 0
    · have ht : texts = [] := List.length_eq_zero.mp hn
      subst ht
      have hempty : batchSlices bs [] = [] := by
        unfold batchSlices numBatches
        have hz : (List.length ([] : List String) + bs - 1) / bs = 0 :=
          Nat.div_eq_of_lt (by simp; omega)
        rw [hz]
        simp
      rw [hempty] at hb
      simp at hb
    · rw [generateEmbeddingsBatched, if_neg hn, if_neg (by omega : ¬ bs = 0)]
      have hsome : (((batchSlices bs texts).map fun b => (b, embed b)).enum.findSome?
          (fun ip =>
            match ip.2.2 with
            | .error e => some ("batch " ++ toString ip.1 ++ " failed: " ++ e)
            | .ok _ => none)) ≠ none := by
        intro hall
        rw [List.findSome?_eq_none_iff] at hall
        have hmem : (b, embed b) ∈ ((batchSlices bs texts).map fun b => (b, embed b)) :=
          List.mem_map_of_mem _ hb
        have hmem2 : (b, embed b) ∈
            (((batchSlices bs texts).map fun b => (b, embed b)).enum.map Prod.snd) := by
          rw [List.enum_map_snd]
          exact hmem
        obtain ⟨ip, hip, hipeq⟩ := List.mem_map.mp hmem2
        have := hall ip hip
        rw [show ip.2 = (b, embed b) from hipeq] at this
        simp only [he] at this
        exact Option.noConfusion this
      obtain ⟨msg, hmsg⟩ := Option.ne_none_iff_exists'.mp hsome
      simp only [hmsg]
      exact ⟨msg, rfl⟩

/-- C7 witness: the batcher evaluated with batch size 2 on three texts with a
client returning one vector per text, and with a failing client on one
text. -/
theorem embedding_batcher_spec_witness :
    (∃ out : List (EmbResult Nat),
      generateEmbeddingsBatched (fun b => .ok (b.map fun _ => 0)) 2 ["a", "b", "c"] =
          some (.ok (out, 10 * ((["a", "b", "c"] : List String).length : Int))) ∧
        out.map (fun r => r.text) = ["a", "b", "c"] ∧
        out.length = (["a", "b", "c"] : List String).length ∧
        ∀ i : Nat, (out.get? i).map (fun r => r.text) =
          (["a", "b", "c"] : List String).get? i) ∧
    (∃ e2, generateEmbeddingsBatched
        (fun _ => (.error "boom" : Except String (List Nat))) 1 ["a"] =
        some (.error e2)) := by
  constructor
  · exact (embedding_batcher_spec (fun b => .ok (b.map fun _ => 0)) 2
      ["a", "b", "c"]).2.1 (by omega) (fun b vs h => by cases h; simp)
      (fun b _ => ⟨b.map fun _ => 0, rfl⟩)
  · exact (embedding_batcher_spec (fun _ => (.error "boom" : Except String (List Nat)))
      1 ["a"]).2.2 (by omega) ⟨["a"], by decide, "boom", rfl⟩

/-- C10: the batcher is well-defined exactly under a positive batch size:
with batchSize at least 1 the computation never panics and every slice bound
`start = i*batchSize`, `end = min(start+batchSize, len)` lies in range, while
batchSize 0 on non-empty input is the integer division by zero. -/
theorem batcher_precondition_spec (bs : Nat) (texts : List String) :
    (∀ embed : List String → Except String (List Nat),
      1 ≤ bs → (generateEmbeddingsBatched embed bs texts).isSome) ∧
    (1 ≤ bs → ∀ i, i < numBatches bs texts →
      i * bs < texts.length ∧
      i * bs ≤ min (i * bs + bs) texts.length ∧
      min (i * bs + bs) texts.length ≤ texts.length) ∧
    (∀ embed : List String → Except String (List Nat),
      texts ≠ [] → generateEmbeddingsBatched embed 0 texts = none) := by
  refine ⟨?_, ?_, ?_⟩
  · intro embed hbs
    rw [generateEmbeddingsBatched]
    by_cases hn : texts.length = 0
    · rw [if_pos hn]
      rfl
    · rw [if_neg hn, if_neg (by omega : ¬ bs = 0)]
      dsimp only
      split
      · rfl
      · rfl
  · intro hbs i hi
    unfold numBatches at hi
    have h2 : (texts.length + bs - 1) / bs * bs ≤ texts.length + bs - 1 :=
      Nat.div_mul_le_self _ _
    have h3 : (i + 1) * bs ≤ (texts.length + bs - 1) / bs * bs :=
      Nat.mul_le_mul_right bs hi
    have h4 : i * bs + bs ≤ texts.length + bs - 1 := by
      rw [Nat.succ_mul] at h3
      omega
    omega
  · intro embed hne
    rw [generateEmbeddingsBatched,
      if_neg (by simpa using hne : ¬ texts.length = 0), if_pos rfl]

/-- C10 witness: batch size 2 on three texts is total with in-range bounds,
and batch size 0 on the same non-empty input panics. -/
theorem batcher_precondition_spec_witness :
    (generateEmbeddingsBatched (fun b => .ok (b.map fun _ => (0 : Nat))) 2
        ["a", "b", "c"]).isSome ∧
    (1 * 2 < (["a", "b", "c"] : List String).length ∧
      1 * 2 ≤ min (1 * 2 + 2) (["a", "b", "c"] : List String).length ∧
      min (1 * 2 + 2) (["a", "b", "c"] : List String).length ≤
        (["a", "b", "c"] : List String).length) ∧
    generateEmbeddingsBatched (fun b => .ok (b.map fun _ => (0 : Nat))) 0
        ["a", "b", "c"] = none := by
  refine ⟨?_, ?_, ?_⟩
  · exact (batcher_precondition_spec 2 ["a", "b", "c"]).1 _ (by omega)
  · exact (batcher_precondition_spec 2 ["a", "b", "c"]).2.1 (by omega) 1 (by decide)
  · exact (batcher_precondition_spec 0 ["a", "b", "c"]).2.2 _ (by decide)

/-- C8 counterexample: with a non-zero configured watermark 5 and persisted
watermark 10 the worker starts from 5, not from the maximum 10. -/
theorem worker_since_not_max_counterexample :
    workerSince 5 { watermark := 10, processedIds := [] } = 5 ∧
      max 5 (getWatermark { watermark := 10, processedIds := [] }) = 10 ∧
      workerSince 5 { watermark := 10, processedIds := [] } ≠
        max 5 (getWatermark { watermark := 10, processedIds := [] }) := by
  refine ⟨rfl, rfl, ?_⟩
  intro h
  exact absurd h (by decide)

/-- C8 amended: the poll start is the configured since timestamp when it is
non-zero and the persisted watermark otherwise; this equals
max(config, persisted) exactly when the configured value is zero or at least
the persisted watermark (both watermarks being non-negative). -/
theorem worker_since_amended (cfg : Int) (s : ScoutState)
    (hw : 0 ≤ getWatermark s)
    (hcases : cfg = 0 ∨ getWatermark s ≤ cfg) :
    workerSince cfg s = max cfg (getWatermark s) := by
  unfold workerSince getWatermark at *
  rcases hcases with hc | hc
  · subst hc
    simp [max_eq_right hw]
  · by_cases hz : cfg = 0
    · subst hz
      simp [max_eq_right hw, le_antisymm hc hw]
    · rw [if_neg hz, max_eq_left hc]

/-- C8 witness for the amended claim: configured watermark 0 defers to the
persisted watermark 7, which is the maximum. -/
theorem worker_since_amended_witness :
    workerSince 0 { watermark := 7, processedIds := [] } =
      max 0 (getWatermark { watermark := 7, processedIds := [] }) :=
  worker_since_amended 0 { watermark := 7, processedIds := [] }
    (by decide) (Or.inl rfl)

/-- Every event of the per-candidate critique loop is a reasoning or a source
event. -/
theorem critiqueResults_events (evalR : String → String → Bool) (sq : String) :
    ∀ (rs : List SearchResult) (e : GenEvent), e ∈ (critiqueResults evalR sq rs).1 →
      (∃ s, e = GenEvent.reasoning s) ∨ (∃ s, e = GenEvent.source s) := by
  intro rs
  induction rs with
  | nil => intro e he; simp [critiqueResults] at he
  | cons r rs ih =>
    intro e he
    by_cases h : evalR sq r.content
    · simp only [critiqueResults, if_pos h, List.mem_cons] at he
      rcases he with he | he
      · exact Or.inr ⟨_, he⟩
      · exact ih e he
    · simp only [critiqueResults, if_neg h, List.mem_cons] at he
      rcases he with he | he
      · exact Or.inl ⟨_, he⟩
      · exact ih e he

/-- Every event of the retrieval loop is a reasoning or a source event. -/
theorem retrieveLoopAux_events (retrieve : String → Except String (List SearchResult))
    (evalR : String → String → Bool) (total : Nat) :
    ∀ (sqs : List String) (i : Nat) (e : GenEvent),
      e ∈ (retrieveLoopAux retrieve evalR total i sqs).1 →
      (∃ s, e = GenEvent.reasoning s) ∨ (∃ s, e = GenEvent.source s) := by
  intro sqs
  induction sqs with
  | nil => intro i e he; simp [retrieveLoopAux] at he
  | cons sq rest ih =>
    intro i e he
    rw [retrieveLoopAux] at he
    cases hr : retrieve sq with
    | error msg =>
      rw [hr] at he
      simp only [List.mem_cons] at he
      rcases he with he | he | he
      · exact Or.inl ⟨_, he⟩
      · exact Or.inl ⟨_, he⟩
      · exact ih (i + 1) e he
    | ok results =>
      rw [hr] at he
      simp only [List.mem_cons, List.mem_append] at he
      rcases he with he | he | he
      · exact Or.inl ⟨_, he⟩
      · exact critiqueResults_events evalR sq results e he
      · exact ih (i + 1) e he

/-- Every event of the retrieval phase is a reasoning or a source event. -/
theorem retrievalPhase_events (retr : Option (String → Except String (List SearchResult)))
    (evalR : String → String → Bool) (subQs : List String) :
    ∀ e ∈ (retrievalPhase retr evalR subQs).1,
      (∃ s, e = GenEvent.reasoning s) ∨ (∃ s, e = GenEvent.source s) := by
  intro e he
  cases retr with
  | none =>
    simp only [retrievalPhase, List.mem_singleton] at he
    exact Or.inl ⟨_, he⟩
  | some retrieve =>
    simp only [retrievalPhase, List.mem_append, List.mem_singleton] at he
    rcases he with he | he
    · exact retrieveLoopAux_events retrieve evalR subQs.length subQs 0 e he
    · exact Or.inl ⟨_, he⟩

/-- The retrieval phase never emits the close marker. -/
theorem retrievalPhase_no_closed (retr : Option (String → Except String (List SearchResult)))
    (evalR : String → String → Bool) (subQs : List String) :
    GenEvent.closed ∉ (retrievalPhase retr evalR subQs).1 := by
  intro h
  rcases retrievalPhase_events retr evalR subQs _ h with ⟨s, hs⟩ | ⟨s, hs⟩ <;>
    exact GenEvent.noConfusion hs

/-- The retrieval phase never emits an answer event. -/
theorem retrievalPhase_no_answer (retr : Option (String → Except String (List SearchResult)))
    (evalR : String → String → Bool) (subQs : List String) (s : String) :
    GenEvent.answer s ∉ (retrievalPhase retr evalR subQs).1 := by
  intro h
  rcases retrievalPhase_events retr evalR subQs _ h with ⟨t, ht⟩ | ⟨t, ht⟩ <;>
    exact GenEvent.noConfusion ht

/-- The close marker does not occur in a conditional reasoning prelude. -/
theorem closed_not_mem_ite (c : Prop) [Decidable c] (s : String) :
    GenEvent.closed ∉ (if c then [GenEvent.reasoning s] else []) := by
  split <;> simp

/-- No answer event occurs in a conditional reasoning prelude. -/
theorem answer_not_mem_ite (c : Prop) [Decidable c] (s t : String) :
    GenEvent.answer t ∉ (if c then [GenEvent.reasoning s] else []) := by
  split <;> simp

/-- A trace ending in one payload event and the close marker closes exactly
once, after the final event. -/
theorem closed_tail_decomp (A : List GenEvent) (x : GenEvent)
    (hx : x ≠ GenEvent.closed) (hA : GenEvent.closed ∉ A) :
    ∃ pre, A ++ [x, GenEvent.closed] = pre ++ [GenEvent.closed] ∧
      GenEvent.closed ∉ pre := by
  refine ⟨A ++ [x], by simp, ?_⟩
  simp only [List.mem_append, List.mem_singleton]
  rintro (h | h)
  · exact hA h
  · exact hx h.symm

/-- C9: the generator stream closes exactly once after the final event; when
every heavy-LLM call succeeds the final event is an answer; and on a
No Support critique with kept context, exactly one additional heavy call is
made with the strict directive appended to the same prompt, preceded by the
regeneration reasoning event and followed by the single answer event. -/
theorem generate_answer_stream_spec (decomposeResp : Except String String)
    (retr : Option (String → Except String (List SearchResult)))
    (evalR : String → String → Bool) (evalGen : String → String → SupportLevel)
    (heavy : String → Except String String) (query : String) :
    (∃ pre, (generateAnswer decomposeResp retr evalR evalGen heavy query).events =
        pre ++ [GenEvent.closed] ∧ GenEvent.closed ∉ pre) ∧
    ((∀ p, ∃ a, heavy p = .ok a) →
      ∃ pre ans, (generateAnswer decomposeResp retr evalR evalGen heavy query).events =
        pre ++ [GenEvent.answer ans, GenEvent.closed]) ∧
    (∀ draft finalAnswer,
      0 < (retrievalPhase retr evalR (decomposeSubQueries decomposeResp query)).2.length →
      heavy (buildRAGPrompt query
        (retrievalPhase retr evalR (decomposeSubQueries decomposeResp query)).2) =
        .ok draft →
      evalGen draft (String.intercalate "\n\n"
        (retrievalPhase retr evalR (decomposeSubQueries decomposeResp query)).2) =
        SupportLevel.noSupport →
      heavy (buildRAGPrompt query
          (retrievalPhase retr evalR (decomposeSubQueries decomposeResp query)).2 ++
          strictDirective) = .ok finalAnswer →
      (generateAnswer decomposeResp retr evalR evalGen heavy query).heavyCalls =
        [buildRAGPrompt query
          (retrievalPhase retr evalR (decomposeSubQueries decomposeResp query)).2,
         buildRAGPrompt query
            (retrievalPhase retr evalR (decomposeSubQueries decomposeResp query)).2 ++
            strictDirective] ∧
      ∃ pre, (generateAnswer decomposeResp retr evalR evalGen heavy query).events =
          pre ++ [GenEvent.reasoning
              "[Self-RAG] Answer not supported by context. Regenerating...",
            GenEvent.answer finalAnswer, GenEvent.closed] ∧
        ∀ e ∈ pre, ∀ s, e ≠ GenEvent.answer s) := by
  refine ⟨?_, ?_, ?_⟩
  · simp only [generateAnswer]
    split
    · dsimp only
      exact closed_tail_decomp _ _ (by simp)
        (by simp [closed_not_mem_ite, retrievalPhase_no_closed])
    · split
      · split
        · split
          · dsimp only
            exact closed_tail_decomp _ _ (by simp)
              (by simp [closed_not_mem_ite, retrievalPhase_no_closed])
          · dsimp only
            exact closed_tail_decomp _ _ (by simp)
              (by simp [closed_not_mem_ite, retrievalPhase_no_closed])
        · dsimp only
          exact closed_tail_decomp _ _ (by simp)
            (by simp [closed_not_mem_ite, retrievalPhase_no_closed])
      · dsimp only
        exact closed_tail_decomp _ _ (by simp)
          (by simp [closed_not_mem_ite, retrievalPhase_no_closed])
  · intro hall
    obtain ⟨a1, ha1⟩ := hall (buildRAGPrompt query
      (retrievalPhase retr evalR (decomposeSubQueries decomposeResp query)).2)
    simp only [generateAnswer, ha1]
    by_cases hctx :
        0 < (retrievalPhase retr evalR (decomposeSubQueries decomposeResp query)).2.length
    · rw [if_pos hctx]
      by_cases hsup : evalGen a1 (String.intercalate "\n\n"
          (retrievalPhase retr evalR (decomposeSubQueries decomposeResp query)).2) =
          SupportLevel.noSupport
      · rw [if_pos hsup]
        obtain ⟨a2, ha2⟩ := hall (buildRAGPrompt query
          (retrievalPhase retr evalR (decomposeSubQueries decomposeResp query)).2 ++
          strictDirective)
        simp only [ha2]
        exact ⟨_, a2, rfl⟩
      · rw [if_neg hsup]
        exact ⟨_, a1, rfl⟩
    · rw [if_neg hctx]
      exact ⟨_, a1, rfl⟩
  · intro draft finalAnswer hctx hdraft hsup hregen
    simp only [generateAnswer, hdraft]
    rw [if_pos hctx, if_pos hsup]
    simp only [hregen]
    refine ⟨by trivial, ?_⟩
    refine ⟨GenEvent.reasoning "[CoR] Analyzing query complexity..." ::
        ((if 1 < (decomposeSubQueries decomposeResp query).length then
            [GenEvent.reasoning ("[CoR] Decomposed into " ++
              toString (decomposeSubQueries decomposeResp query).length ++
              " sub-queries")]
          else []) ++
          ((retrievalPhase retr evalR (decomposeSubQueries decomposeResp query)).1 ++
            [GenEvent.reasoning "[Agent] Generating answer...",
             GenEvent.reasoning ("[Self-RAG] Support level: " ++
               supportStr (evalGen draft (String.intercalate "

"
                 (retrievalPhase retr evalR
                   (decomposeSubQueries decomposeResp query)).2)))])), by simp, ?_⟩
    intro e he s hes
    subst hes
    simp only [List.mem_cons, List.mem_append, List.mem_singleton,
      List.not_mem_nil, or_false] at he
    rcases he with he | he | he | he | he
    · exact GenEvent.noConfusion he
    · exact answer_not_mem_ite _ _ _ he
    · exact retrievalPhase_no_answer retr evalR _ s he
    · exact GenEvent.noConfusion he
    · exact GenEvent.noConfusion he

/-- C9 witness: on concrete oracles whose critique reports No Support, the
generator makes exactly the two heavy calls (the second with the strict
directive) and emits the regeneration reasoning, one answer, then the single
close. -/
theorem generate_answer_stream_spec_witness :
    (generateAnswer c9Decomp c9Retr c9EvalR c9EvalGen c9Heavy "q").heavyCalls =
      [buildRAGPrompt "q"
        (retrievalPhase c9Retr c9EvalR (decomposeSubQueries c9Decomp "q")).2,
       buildRAGPrompt "q"
          (retrievalPhase c9Retr c9EvalR (decomposeSubQueries c9Decomp "q")).2 ++
          strictDirective] ∧
    ∃ pre, (generateAnswer c9Decomp c9Retr c9EvalR c9EvalGen c9Heavy "q").events =
        pre ++ [GenEvent.reasoning
            "[Self-RAG] Answer not supported by context. Regenerating...",
          GenEvent.answer "ans", GenEvent.closed] ∧
      ∀ e ∈ pre, ∀ s, e ≠ GenEvent.answer s :=
  (generate_answer_stream_spec c9Decomp c9Retr c9EvalR c9EvalGen c9Heavy "q").2.2
    "ans" "ans" (by decide) rfl rfl rfl
